import Mathlib

/-!
Shallow embedding of `src/app/app.py` (Support Tickets SLA Analytics).

Timestamps are modelled as rational minutes since an arbitrary epoch; a
missing value (pandas NaT / NaN) is `Option.none`.  The float arithmetic of
the source only ever divides by a denominator clipped to at least `1.0`, so
exact rational arithmetic is a faithful model of the reachable computations;
NaN propagation of pandas and NumPy is modelled by `Option`.
-/

namespace SlaApp

/-- Whitespace characters stripped by Python `str.strip` and matched by the
regex class used in `str.replace` on lines 78-83 and 130-135. -/
def isPySpace (c : Char) : Bool :=
  c == ' ' || c == '\t' || c == '\n' || c == '\r' || c == '\x0b' || c == '\x0c'

/-- Model of the regex replacement collapsing every whitespace run to a single
space (line 82).  The boolean flag records whether the previous character was
whitespace, i.e. whether the current run has already emitted its space. -/
def collapseWS : Bool → List Char → List Char
  | _, [] => []
  | prevWS, c :: cs =>
    if isPySpace c then
      if prevWS then collapseWS true cs else ' ' :: collapseWS true cs
    else c :: collapseWS false cs

/-- Drop the trailing whitespace run, as the right half of `str.strip`. -/
def dropTrailingWS : List Char → List Char
  | [] => []
  | c :: cs =>
    match dropTrailingWS cs with
    | [] => if isPySpace c then [] else [c]
    | r => c :: r

/-- Python `str.strip()`: remove leading and trailing whitespace. -/
def pyStrip (l : List Char) : List Char :=
  dropTrailingWS (l.dropWhile isPySpace)

/-- CRM-company normalization of lines 77-83 / 129-135: `.astype(str)`
(already a string here) then `.str.strip()` then `.str.replace` collapsing
whitespace runs to one space. -/
def normalizeCompany (s : String) : String :=
  ⟨collapseWS false (pyStrip s.data)⟩

/-! ### Comparators

Python compares strings lexicographically by code point; pandas sorts with
`na_position="last"`, so a missing value goes after every concrete value of
its column, for ascending and for descending keys alike.  The comparators
are structural boolean functions so that every concrete run of the model
evaluates inside the proof checker. -/

def charLtB (a b : Char) : Bool :=
  decide (a.toNat < b.toNat)

def charListLtB : List Char → List Char → Bool
  | [], [] => false
  | [], _ :: _ => true
  | _ :: _, [] => false
  | a :: as, b :: bs => if a == b then charListLtB as bs else charLtB a b

/-- Python string comparison: code-point lexicographic. -/
def strLtB (a b : String) : Bool :=
  charListLtB a.data b.data

/-- The ascending string order used by Python `sorted`. -/
def strLe (a b : String) : Prop :=
  strLtB b a = false

instance : DecidableRel strLe := fun a b =>
  inferInstanceAs (Decidable (strLtB b a = false))

/-- Strictly-before for an ascending sort key with missing values last. -/
def ascNLLtB (a b : Option ℚ) : Bool :=
  match a, b with
  | some x, some y => decide (x < y)
  | some _, none => true
  | none, _ => false

/-- Strictly-before for a descending sort key with missing values last. -/
def descNLLtB (a b : Option ℚ) : Bool :=
  match a, b with
  | some x, some y => decide (y < x)
  | some _, none => true
  | none, _ => false

/-! ### Scalar model: `Option ℚ` with `none` for NaN / NaT -/

/-- Subtraction of two nullable values; NaN/NaT propagates. -/
def optSub (a b : Option ℚ) : Option ℚ :=
  match a, b with
  | some x, some y => some (x - y)
  | _, _ => none

/-- Pandas comparison `a <= b`: `False` whenever either side is missing. -/
def optLeB (a b : Option ℚ) : Bool :=
  match a, b with
  | some x, some y => decide (x ≤ y)
  | _, _ => false

/-- Pandas comparison `a > 0` used as the `np.where` condition: `False` on
NaN. -/
def optGtZero : Option ℚ → Bool
  | some d => decide (0 < d)
  | none => false

/-- `np.clip(x, 1.0, None)`: raise the value to the floor `1.0`; NaN
propagates (NumPy maximum of NaN is NaN). -/
def npClip1 (x : Option ℚ) : Option ℚ :=
  x.map (fun v => max v 1)

/-- Division of nullable values.  Every division performed by the source has
a denominator that is either missing or clipped to at least `1.0`, so the
rational division is exact on all reachable inputs. -/
def optDiv (a b : Option ℚ) : Option ℚ :=
  match a, b with
  | some x, some y => some (x / y)
  | _, _ => none

/-- Multiplication by the scalar `100.0`; NaN propagates. -/
def optMul100 (a : Option ℚ) : Option ℚ :=
  a.map (fun v => v * 100)

/-! ### Ticket rows and the upload pipeline (`upload_tickets`, lines 68-117) -/

/-- One CSV row after `pd.read_csv` and the per-column coercions: the five
date columns have been parsed with `pd.to_datetime(..., errors="coerce")`
(`none` for an unparseable value) and the reopen count has been parsed with
`pd.to_numeric(..., errors="coerce")` (`none` when missing or unparseable). -/
structure RawTicketRow where
  issue_key : String
  severity : String
  status : String
  assignee : String
  environment : String
  product : String
  summary : String
  crm_company : String
  fr_target : Option ℚ
  fr_actual : Option ℚ
  created : Option ℚ
  updated : Option ℚ
  resolved : Option ℚ
  reopen_raw : Option ℚ
deriving DecidableEq

/-- A stored ticket row (one row of `tickets.parquet`). -/
structure Ticket where
  issue_key : String
  severity : String
  status : String
  assignee : String
  environment : String
  product : String
  summary : String
  crm_company : String
  fr_target : Option ℚ
  fr_actual : Option ℚ
  created : Option ℚ
  updated : Option ℚ
  resolved : Option ℚ
  reopen_count : ℤ
  resolution_minutes : Option ℚ
deriving DecidableEq

/-- Truncation toward zero, the effect of `.astype(int)` on a float. -/
def truncFloat (q : ℚ) : ℤ :=
  if 0 ≤ q then ⌊q⌋ else ⌈q⌉

/-- Line 109: `pd.to_numeric(df["reopen_count"], errors="coerce").fillna(0)
.astype(int)`. -/
def reopenOf : Option ℚ → ℤ
  | none => 0
  | some q => truncFloat q

/-- Lines 77-83 and 108-110 applied to one row: company normalization,
`reopen_count` coercion and the derived `resolution_minutes =
(resolved - created)` in minutes. -/
def mkStored (r : RawTicketRow) : Ticket :=
  { issue_key := r.issue_key
    severity := r.severity
    status := r.status
    assignee := r.assignee
    environment := r.environment
    product := r.product
    summary := r.summary
    crm_company := normalizeCompany r.crm_company
    fr_target := r.fr_target
    fr_actual := r.fr_actual
    created := r.created
    updated := r.updated
    resolved := r.resolved
    reopen_count := reopenOf r.reopen_raw
    resolution_minutes := optSub r.resolved r.created }

/-- Lines 105-110: keep only rows with `status == "Permanently Closed"` and
derive the stored fields. -/
def processBatch (rows : List RawTicketRow) : List Ticket :=
  (rows.filter (fun r => decide (r.status = "Permanently Closed"))).map mkStored

/-- Strictly-before under the sort key of line 115: ascending lexicographic
on `(issue_key, resolved)` with missing `resolved` last (`na_position` is
`"last"` by default). -/
def rowLtB (a b : Ticket) : Bool :=
  strLtB a.issue_key b.issue_key ||
    (a.issue_key == b.issue_key && ascNLLtB a.resolved b.resolved)

/-- The total preorder used by `sort_values(["issue_key", "resolved"])`. -/
def rowLe (a b : Ticket) : Prop :=
  rowLtB b a = false

instance : DecidableRel rowLe := fun a b =>
  inferInstanceAs (Decidable (rowLtB b a = false))

/-- The pandas multi-column sort is stable (it is `np.lexsort`); any stable
sort by the same total preorder produces the same list, so insertion sort is
a faithful model. -/
def sortTickets (l : List Ticket) : List Ticket :=
  List.insertionSort rowLe l

/-- `drop_duplicates(["issue_key"], keep="last")`: a row survives iff no
later row carries the same `issue_key`. -/
def dropDupKeepLast : List Ticket → List Ticket
  | [] => []
  | r :: rest =>
    if rest.any (fun x => x.issue_key == r.issue_key) then dropDupKeepLast rest
    else r :: dropDupKeepLast rest

/-- Lines 112-116: concatenate the stored table with the filtered batch,
sort by `(issue_key, resolved)` and keep the last duplicate of each key. -/
def upsert_tickets (cur : List Ticket) (batch : List RawTicketRow) : List Ticket :=
  dropDupKeepLast (sortTickets (cur ++ processBatch batch))

/-- Client-facing errors of the ticket upload endpoint. -/
inductive UploadError where
  | unsupportedFileType
  | missingColumns (cols : List String)
deriving DecidableEq

/-- Lines 34-41. -/
def REQUIRED_TICKET_COLS : List String :=
  ["Issue key", "Custom field (Severity)", "Status",
   "Custom field (First Response SLA Target Date)",
   "Custom field (First Response SLA Actual Date)",
   "Created", "Resolved", "Assignee",
   "Custom field (Product)", "Custom field (CRM Company)",
   "Custom field (Reopen Count)"]

/-- Lines 98-100: `sorted(set(REQUIRED_TICKET_COLS) - set(df.columns))`.
`REQUIRED_TICKET_COLS` has no duplicates, so filtering it is the set
difference; Python sorts strings by code point, as Lean's `String` order
does. -/
def missingOf (headers : List String) : List String :=
  List.insertionSort strLe (REQUIRED_TICKET_COLS.filter (fun c => !(headers.contains c)))

/-- Suffix test on character lists. -/
def endsWithCL (l suffix : List Char) : Bool :=
  List.drop (l.length - suffix.length) l == suffix

/-- Model of `file.filename.lower().endswith(".csv")` (line 70): ASCII
lowering of each character followed by a suffix check. -/
def csvName (s : String) : Bool :=
  endsWithCL (s.data.map Char.toLower) ".csv".data

/-- A parsed upload request: the file name, the CSV header row, and the data
rows (post per-column coercion, see `RawTicketRow`). -/
structure TicketsUpload where
  filename : String
  headers : List String
  rows : List RawTicketRow

/-- The `/upload/tickets` endpoint (lines 68-117), as a function from the
stored table (`none` when `tickets.parquet` does not exist yet) to the new
stored table and the response.  An error leaves the store untouched: the
source raises before `to_parquet` runs. -/
def upload_tickets (store : Option (List Ticket)) (u : TicketsUpload) :
    Option (List Ticket) × Except UploadError (Nat × Nat) :=
  if csvName u.filename then
    if missingOf u.headers = [] then
      (some (upsert_tickets (store.getD []) u.rows),
        Except.ok ((upsert_tickets (store.getD []) u.rows).length,
          (processBatch u.rows).length))
    else (store, Except.error (UploadError.missingColumns (missingOf u.headers)))
  else (store, Except.error UploadError.unsupportedFileType)

/-- Folding a sequence of uploads over the store, starting from an absent
table. -/
def runUploads (batches : List TicketsUpload) : Option (List Ticket) :=
  batches.foldl (fun st u => (upload_tickets st u).1) none

/-! ### SLA table and the join & metrics engine (`_load_joined`, lines 175-203) -/

/-- One row of `sla.parquet`, as produced by the pivot of `upload_sla`:
keyed by company and severity, with optional first-response and resolution
target minutes. -/
structure SlaRow where
  crm_company : String
  severity : String
  first_response : Option ℚ
  resolution : Option ℚ
deriving DecidableEq

/-- A row of the ephemeral joined dataset with its four derived metric
columns. -/
structure Joined where
  ticket : Ticket
  first_response : Option ℚ
  resolution : Option ℚ
  first_response_within_sla : Bool
  first_response_exceed_pct : Option ℚ
  resolution_within_sla : Bool
  resolution_exceed_pct : Option ℚ
deriving DecidableEq

/-- Line 184: `delta_fr = (fr_actual - fr_target)` in minutes. -/
def deltaFR (t : Ticket) : Option ℚ :=
  optSub t.fr_actual t.fr_target

/-- Line 186: `target_fr = (fr_target - created)` in minutes, the reference
window. -/
def windowFR (t : Ticket) : Option ℚ :=
  optSub t.fr_target t.created

/-- Lines 187-191 and 197-201: `np.where(delta > 0, (delta /
np.clip(denom, 1.0, None)) * 100.0, 0.0)`. -/
def exceedPct (delta denom : Option ℚ) : Option ℚ :=
  if optGtZero delta then optMul100 (optDiv delta (npClip1 denom)) else some 0

/-- Line 183: `(fr_actual <= fr_target) & fr_actual.notna() &
fr_target.notna()`. -/
def frWithin (t : Ticket) : Bool :=
  optLeB t.fr_actual t.fr_target && t.fr_actual.isSome && t.fr_target.isSome

/-- Lines 182-201 applied to one merged row: the four derived columns. -/
def mkJoined (t : Ticket) (fr res : Option ℚ) : Joined :=
  { ticket := t
    first_response := fr
    resolution := res
    first_response_within_sla := frWithin t
    first_response_exceed_pct := exceedPct (deltaFR t) (windowFR t)
    resolution_within_sla := optLeB t.resolution_minutes res
    resolution_exceed_pct := exceedPct (optSub t.resolution_minutes res) res }

/-- Line 180: `t.merge(s, how="left", on=["crm_company", "severity"])` for a
single ticket: one output row per matching SLA row, or a single row with
missing SLA fields when no row matches. -/
def joinSLA (sla : List SlaRow) (t : Ticket) : List Joined :=
  match sla.filter (fun r => r.crm_company == t.crm_company && r.severity == t.severity) with
  | [] => [mkJoined t none none]
  | ms => ms.map (fun r => mkJoined t r.first_response r.resolution)

/-- The joined dataset computed by `_load_joined` from the two stored
tables. -/
def load_joined (tickets : List Ticket) (sla : List SlaRow) : List Joined :=
  tickets.flatMap (joinSLA sla)

/-- Error of the report endpoints (line 177). -/
inductive ReportError where
  | dataNotReady
deriving DecidableEq

/-- Lines 176-179: both parquet files must exist. -/
def load_joinedOp (tickets : Option (List Ticket)) (sla : Option (List SlaRow)) :
    Except ReportError (List Joined) :=
  match tickets, sla with
  | some t, some s => Except.ok (load_joined t s)
  | _, _ => Except.error ReportError.dataNotReady

/-! ### Reports (lines 205-287) -/

/-- A JSON scalar at the response boundary.  `json.dumps` serializes a float
NaN as the literal `NaN`, distinct from `null`; non-numeric cells (ISO
date strings, plain strings, booleans) are carried by their typed record
fields. -/
inductive JVal where
  | num (q : ℚ)
  | nan
  | null
deriving DecidableEq

/-- `round(2)`: rounding to two decimals.  The claims never depend on the
tie-breaking rule of float rounding, only on finiteness, so half-up integer
rounding of `100 q` is used. -/
def round2 (q : ℚ) : ℚ :=
  (round (q * 100) : ℚ) / 100

/-- `.round(2)` on a nullable column: NaN stays NaN. -/
def optRound2 : Option ℚ → Option ℚ :=
  Option.map round2

/-- `to_dict` followed by `json.dumps` on an unsanitized float column: a NaN
reaches the response as the `NaN` literal. -/
def emitRaw : Option ℚ → JVal
  | none => JVal.nan
  | some q => JVal.num q

/-- `_json_records` (lines 205-227) on a float or datetime column: `±inf`
is replaced by NaN (no infinity exists in this rational model) and NaN/NaT
becomes `None`, i.e. JSON `null`. -/
def emitClean : Option ℚ → JVal
  | none => JVal.null
  | some q => JVal.num q

/-- `mean()` with the default `skipna=True`: missing values are ignored and
an all-missing group has a NaN mean. -/
def meanOpt (vs : List (Option ℚ)) : Option ℚ :=
  let xs := vs.filterMap id
  if xs.isEmpty then none else some (xs.sum / (xs.length : ℚ))

/-- One record of the `assignee_avg` / `product_avg` responses. -/
structure AvgRec where
  key : String
  resolution_minutes : JVal
deriving DecidableEq

/-- Strictly-before under the sort key of lines 235 / 242: ascending by
(rounded mean, group key), missing means last. -/
def avgLtB (a b : String × Option ℚ) : Bool :=
  ascNLLtB a.2 b.2 || (a.2 == b.2 && strLtB a.1 b.1)

def avgLe (a b : String × Option ℚ) : Prop :=
  avgLtB b a = false

instance : DecidableRel avgLe := fun a b =>
  inferInstanceAs (Decidable (avgLtB b a = false))

/-- Lines 232-235 / 239-242: group by a key column (`groupby` sorts the
distinct keys), average `resolution_minutes`, round, sort, serialize
without `_json_records`. -/
def avgReport (proj : Joined → String) (d : List Joined) : List AvgRec :=
  (List.insertionSort avgLe
    ((List.insertionSort strLe (d.map proj).dedup).map (fun k =>
      (k, optRound2 (meanOpt ((d.filter (fun j => proj j == k)).map
        (fun j => j.ticket.resolution_minutes))))))).map (fun p => ⟨p.1, emitRaw p.2⟩)

/-- The `/reports/assignee_avg` endpoint. -/
def assignee_avg (tickets : Option (List Ticket)) (sla : Option (List SlaRow)) :
    Except ReportError (List AvgRec) :=
  match load_joinedOp tickets sla with
  | Except.error e => Except.error e
  | Except.ok d => Except.ok (avgReport (fun j => j.ticket.assignee) d)

/-- The `/reports/product_avg` endpoint. -/
def product_avg (tickets : Option (List Ticket)) (sla : Option (List SlaRow)) :
    Except ReportError (List AvgRec) :=
  match load_joinedOp tickets sla with
  | Except.error e => Except.error e
  | Except.ok d => Except.ok (avgReport (fun j => j.ticket.product) d)

/-- One record of the `violations` response. -/
structure VioRec where
  issue_key : String
  created : JVal
  assignee : String
  product : String
  reopen_count : ℤ
  first_response_within_sla : Bool
  first_response_exceed_pct : JVal
  resolution_within_sla : Bool
  resolution_exceed_pct : JVal
deriving DecidableEq

/-- Strictly-before under the sort key of lines 263-267: descending by the
two rounded percentages, ascending by created, missing values last in each
key. -/
def vioLtB (a b : Joined × Option ℚ × Option ℚ) : Bool :=
  descNLLtB a.2.2 b.2.2 || (a.2.2 == b.2.2 &&
    (descNLLtB a.2.1 b.2.1 || (a.2.1 == b.2.1 &&
      ascNLLtB a.1.ticket.created b.1.ticket.created)))

def vioLe (a b : Joined × Option ℚ × Option ℚ) : Prop :=
  vioLtB b a = false

instance : DecidableRel vioLe := fun a b =>
  inferInstanceAs (Decidable (vioLtB b a = false))

/-- The `/reports/violations` endpoint body (lines 244-269): filter the
non-compliant rows, coerce and round the two percentage columns, sort, then
sanitize through `_json_records`. -/
def violations_rows (d : List Joined) : List VioRec :=
  (List.insertionSort vioLe
    ((d.filter (fun j => !j.first_response_within_sla || !j.resolution_within_sla)).map
      (fun j =>
        (j, optRound2 j.first_response_exceed_pct,
          optRound2 j.resolution_exceed_pct)))).map (fun r =>
    { issue_key := r.1.ticket.issue_key
      created := emitClean r.1.ticket.created
      assignee := r.1.ticket.assignee
      product := r.1.ticket.product
      reopen_count := r.1.ticket.reopen_count
      first_response_within_sla := r.1.first_response_within_sla
      first_response_exceed_pct := emitClean r.2.1
      resolution_within_sla := r.1.resolution_within_sla
      resolution_exceed_pct := emitClean r.2.2 })

def violations (tickets : Option (List Ticket)) (sla : Option (List SlaRow)) :
    Except ReportError (List VioRec) :=
  match load_joinedOp tickets sla with
  | Except.error e => Except.error e
  | Except.ok d => Except.ok (violations_rows d)

/-- One record of the `reopens` response. -/
structure ReoRec where
  reopen_count : ℤ
  summary : String
  issue_key : String
  created : JVal
  assignee : String
  product : String
  first_response_exceed_pct : JVal
  resolution_exceed_pct : JVal
deriving DecidableEq

/-- Strictly-before under the sort key of lines 279-282: descending by
reopen count and the two raw percentages, missing values last. -/
def reoLtB (a b : Joined) : Bool :=
  decide (b.ticket.reopen_count < a.ticket.reopen_count) ||
    (a.ticket.reopen_count == b.ticket.reopen_count &&
      (descNLLtB a.resolution_exceed_pct b.resolution_exceed_pct ||
        (a.resolution_exceed_pct == b.resolution_exceed_pct &&
          descNLLtB a.first_response_exceed_pct b.first_response_exceed_pct)))

def reoLe (a b : Joined) : Prop :=
  reoLtB b a = false

instance : DecidableRel reoLe := fun a b =>
  inferInstanceAs (Decidable (reoLtB b a = false))

/-- The `/reports/reopens` endpoint body (lines 271-287): filter
`reopen_count > 1`, sort, round the percentages and replace their missing
values by `None`, then sanitize through `_json_records`. -/
def reopens_rows (d : List Joined) : List ReoRec :=
  (List.insertionSort reoLe
    (d.filter (fun j => decide (1 < j.ticket.reopen_count)))).map (fun j =>
    { reopen_count := j.ticket.reopen_count
      summary := j.ticket.summary
      issue_key := j.ticket.issue_key
      created := emitClean j.ticket.created
      assignee := j.ticket.assignee
      product := j.ticket.product
      first_response_exceed_pct := emitClean (optRound2 j.first_response_exceed_pct)
      resolution_exceed_pct := emitClean (optRound2 j.resolution_exceed_pct) })

def reopens (tickets : Option (List Ticket)) (sla : Option (List SlaRow)) :
    Except ReportError (List ReoRec) :=
  match load_joinedOp tickets sla with
  | Except.error e => Except.error e
  | Except.ok d => Except.ok (reopens_rows d)

/-! ## Order facts for the sort comparators -/

theorem charLtB_asymm {a b : Char} (h : charLtB a b = true) : charLtB b a = false := by
  simp only [charLtB, decide_eq_true_eq, decide_eq_false_iff_not] at h ⊢
  omega

theorem charLtB_trans {a b c : Char} (h1 : charLtB a b = true) (h2 : charLtB b c = true) :
    charLtB a c = true := by
  simp only [charLtB, decide_eq_true_eq] at h1 h2 ⊢
  omega

theorem charEq_of_nltB {a b : Char} (h1 : charLtB a b = false) (h2 : charLtB b a = false) :
    a = b := by
  simp only [charLtB, decide_eq_false_iff_not, Nat.not_lt] at h1 h2
  exact Char.eq_of_val_eq (UInt32.ext (Nat.le_antisymm h2 h1))

theorem charListLtB_asymm :
    ∀ {l m : List Char}, charListLtB l m = true → charListLtB m l = false
  | [], [], h => by simp [charListLtB] at h
  | [], _ :: _, _ => by simp [charListLtB]
  | _ :: _, [], h => by simp [charListLtB] at h
  | a :: as, b :: bs, h => by
    simp only [charListLtB] at h ⊢
    by_cases hab : a = b
    · subst hab
      simpa using charListLtB_asymm (by simpa using h)
    · rw [if_neg (by simpa using hab)] at h
      rw [if_neg (by simpa using Ne.symm hab)]
      exact charLtB_asymm h

theorem charListLtB_trans :
    ∀ {l m n : List Char}, charListLtB l m = true → charListLtB m n = true →
      charListLtB l n = true
  | [], _ :: _, _ :: _, _, _ => by simp [charListLtB]
  | [], _ :: _, [], _, h2 => by simp [charListLtB] at h2
  | [], [], _, h1, _ => by simp [charListLtB] at h1
  | _ :: _, [], _, h1, _ => by simp [charListLtB] at h1
  | _ :: _, _ :: _, [], _, h2 => by simp [charListLtB] at h2
  | a :: as, b :: bs, c :: cs, h1, h2 => by
    simp only [charListLtB] at h1 h2 ⊢
    by_cases hab : a = b <;> by_cases hbc : b = c
    · subst hab; subst hbc
      rw [if_pos (by simp)] at h1 h2 ⊢
      exact charListLtB_trans h1 h2
    · subst hab
      rw [if_neg (by simpa using hbc)] at h2 ⊢
      exact h2
    · subst hbc
      rw [if_neg (by simpa using hab)] at h1 ⊢
      exact h1
    · rw [if_neg (by simpa using hab)] at h1
      rw [if_neg (by simpa using hbc)] at h2
      have hac : a ≠ c := by
        rintro rfl
        exact absurd h2 (by simp [charLtB_asymm h1])
      rw [if_neg (by simpa using hac)]
      exact charLtB_trans h1 h2

theorem charListEq_of_nltB :
    ∀ {l m : List Char}, charListLtB l m = false → charListLtB m l = false → l = m
  | [], [], _, _ => rfl
  | [], _ :: _, h1, _ => by simp [charListLtB] at h1
  | _ :: _, [], _, h2 => by simp [charListLtB] at h2
  | a :: as, b :: bs, h1, h2 => by
    simp only [charListLtB] at h1 h2
    by_cases hab : a = b
    · subst hab
      rw [if_pos (by simp)] at h1 h2
      rw [charListEq_of_nltB h1 h2]
    · rw [if_neg (by simpa using hab)] at h1
      rw [if_neg (by simpa using Ne.symm hab)] at h2
      exact absurd (charEq_of_nltB h1 h2) hab

theorem strEq_of_data_eq {a b : String} (h : a.data = b.data) : a = b := by
  cases a
  cases b
  exact congrArg String.mk h

theorem strLtB_asymm {a b : String} (h : strLtB a b = true) : strLtB b a = false :=
  charListLtB_asymm h

theorem strLtB_trans {a b c : String} (h1 : strLtB a b = true) (h2 : strLtB b c = true) :
    strLtB a c = true :=
  charListLtB_trans h1 h2

theorem strEq_of_nltB {a b : String} (h1 : strLtB a b = false) (h2 : strLtB b a = false) :
    a = b :=
  strEq_of_data_eq (charListEq_of_nltB h1 h2)

theorem strLtB_irrefl (a : String) : strLtB a a = false := by
  by_cases h : strLtB a a = true
  · exact absurd (strLtB_asymm h) (by simp [h])
  · simpa using h

instance : IsTotal String strLe :=
  ⟨fun a b => by
    by_cases h : strLtB b a = true
    · exact Or.inr (strLtB_asymm h)
    · exact Or.inl (by simpa using h)⟩

instance : IsTrans String strLe :=
  ⟨fun a b c h1 h2 => by
    by_contra hca
    replace hca : strLtB c a = true := by simpa [strLe] using hca
    by_cases hbc : strLtB b c = true
    · have hba : strLtB b a = true := strLtB_trans hbc hca
      exact absurd hba (by simpa [strLe] using h1)
    · have hbceq : b = c := strEq_of_nltB (by simpa using hbc) (by simpa [strLe] using h2)
      subst hbceq
      exact absurd hca (by simpa [strLe] using h1)⟩

theorem ascNLLtB_asymm {a b : Option ℚ} (h : ascNLLtB a b = true) : ascNLLtB b a = false := by
  match a, b with
  | none, _ => simp [ascNLLtB] at h
  | some x, none => simp [ascNLLtB]
  | some x, some y =>
    simp only [ascNLLtB, decide_eq_true_eq] at h
    simpa [ascNLLtB, not_lt] using le_of_lt h

theorem ascNLLtB_trans {a b c : Option ℚ} (h1 : ascNLLtB a b = true)
    (h2 : ascNLLtB b c = true) : ascNLLtB a c = true := by
  match a, b, c with
  | _, none, _ => simp [ascNLLtB] at h2
  | none, some y, _ => simp [ascNLLtB] at h1
  | some x, some y, none => simp [ascNLLtB]
  | some x, some y, some z =>
    simp only [ascNLLtB, decide_eq_true_eq] at h1 h2 ⊢
    exact lt_trans h1 h2

theorem ascNLEq_of_nltB {a b : Option ℚ} (h1 : ascNLLtB a b = false)
    (h2 : ascNLLtB b a = false) : a = b := by
  match a, b with
  | none, none => rfl
  | none, some y => simp [ascNLLtB] at h2
  | some x, none => simp [ascNLLtB] at h1
  | some x, some y =>
    simp only [ascNLLtB, decide_eq_false_iff_not, not_lt] at h1 h2
    rw [le_antisymm h2 h1]

theorem rowLtB_asymm {a b : Ticket} (h : rowLtB a b = true) : rowLtB b a = false := by
  simp only [rowLtB, Bool.or_eq_true, Bool.and_eq_true, beq_iff_eq,
    Bool.or_eq_false_iff, Bool.and_eq_false_iff, beq_eq_false_iff_ne] at h ⊢
  rcases h with h | ⟨hk, hr⟩
  · refine ⟨strLtB_asymm h, Or.inl fun e => ?_⟩
    rw [e] at h
    exact absurd h (by simp [strLtB_irrefl])
  · rw [hk]
    exact ⟨strLtB_irrefl _, Or.inr (ascNLLtB_asymm hr)⟩

theorem rowLe_total (a b : Ticket) : rowLe a b ∨ rowLe b a := by
  by_cases h : rowLtB b a = true
  · exact Or.inr (rowLtB_asymm h)
  · exact Or.inl (by simpa [rowLe] using h)

instance : IsTotal Ticket rowLe :=
  ⟨rowLe_total⟩

theorem rowLe_trans {a b c : Ticket} (h1 : rowLe a b) (h2 : rowLe b c) : rowLe a c := by
  unfold rowLe at h1 h2 ⊢
  simp only [rowLtB, Bool.or_eq_false_iff, Bool.and_eq_false_iff,
    beq_eq_false_iff_ne] at h1 h2 ⊢
  obtain ⟨hk1, hr1⟩ := h1
  obtain ⟨hk2, hr2⟩ := h2
  by_cases hbc : strLtB b.issue_key c.issue_key = true
  · constructor
    · by_cases hca : strLtB c.issue_key a.issue_key = true
      · exact absurd (strLtB_trans hbc hca) (by simp [hk1])
      · simpa using hca
    · left
      intro e
      rw [e] at hbc
      exact absurd hbc (by simp [hk1])
  · have hkeq : c.issue_key = b.issue_key := strEq_of_nltB hk2 (by simpa using hbc)
    refine ⟨by rw [hkeq]; exact hk1, ?_⟩
    rcases hr1 with hne | hres1
    · exact Or.inl (by rw [hkeq]; exact hne)
    · rcases hr2 with hne | hres2
      · exact absurd hkeq hne
      · right
        by_cases hcb : ascNLLtB b.resolved c.resolved = true
        · by_cases hca : ascNLLtB c.resolved a.resolved = true
          · exact absurd (ascNLLtB_trans hcb hca) (by simp [hres1])
          · simpa using hca
        · have hre : c.resolved = b.resolved := ascNLEq_of_nltB hres2 (by simpa using hcb)
          rw [hre]
          exact hres1

instance : IsTrans Ticket rowLe :=
  ⟨fun _ _ _ => rowLe_trans⟩

/-! ## Facts about the company-name normalization -/

theorem isPySpace_space : isPySpace ' ' = true := rfl

theorem collapseWS_cons_space_f {c : Char} (hc : isPySpace c = true) (cs : List Char) :
    collapseWS false (c :: cs) = ' ' :: collapseWS true cs := by
  simp [collapseWS, hc]

theorem collapseWS_cons_space_t {c : Char} (hc : isPySpace c = true) (cs : List Char) :
    collapseWS true (c :: cs) = collapseWS true cs := by
  simp [collapseWS, hc]

theorem collapseWS_cons_nonspace {c : Char} (hc : isPySpace c = false) (b : Bool)
    (cs : List Char) : collapseWS b (c :: cs) = c :: collapseWS false cs := by
  cases b <;> simp [collapseWS, hc]

theorem getLast?_cons_ne {c : Char} {X : List Char} (h : X ≠ []) :
    (c :: X).getLast? = X.getLast? := by
  obtain ⟨y, ys, rfl⟩ := List.exists_cons_of_ne_nil h
  exact List.getLast?_cons_cons ..

theorem collapseWS_twice :
    ∀ m : List Char,
      collapseWS false (collapseWS false m) = collapseWS false m ∧
      collapseWS true (collapseWS true m) = collapseWS true m ∧
      collapseWS false (collapseWS true m) = collapseWS true m
  | [] => by simp [collapseWS]
  | c :: cs => by
    obtain ⟨ih1, ih2, ih3⟩ := collapseWS_twice cs
    by_cases h : isPySpace c = true
    · refine ⟨?_, ?_, ?_⟩ <;>
        simp [collapseWS, h, isPySpace_space, ih2, ih3]
    · replace h : isPySpace c = false := by simpa using h
      refine ⟨?_, ?_, ?_⟩ <;>
        simp [collapseWS, h, ih1]

/-- The first character, when there is one, is not whitespace. -/
def headNotWS : List Char → Prop
  | [] => True
  | c :: _ => isPySpace c = false

/-- The last character, when there is one, is not whitespace. -/
def lastNotWS (l : List Char) : Prop :=
  ∀ c, l.getLast? = some c → isPySpace c = false

theorem headNotWS_dropWhile : ∀ l : List Char, headNotWS (l.dropWhile isPySpace)
  | [] => trivial
  | c :: cs => by
    by_cases h : isPySpace c = true
    · rw [List.dropWhile_cons, if_pos h]
      exact headNotWS_dropWhile cs
    · replace h : isPySpace c = false := by simpa using h
      rw [List.dropWhile_cons, if_neg (by simp [h])]
      exact h

theorem headNotWS_dropTrailingWS {l : List Char} (h : headNotWS l) :
    headNotWS (dropTrailingWS l) := by
  match l with
  | [] => trivial
  | c :: cs =>
    show headNotWS (match dropTrailingWS cs with
      | [] => if isPySpace c then [] else [c]
      | r => c :: r)
    cases hr : dropTrailingWS cs with
    | nil =>
      by_cases hc : isPySpace c = true
      · rw [if_pos hc]
        trivial
      · rw [if_neg hc]
        exact h
    | cons x xs => exact h

theorem lastNotWS_dropTrailingWS : ∀ l : List Char, lastNotWS (dropTrailingWS l)
  | [] => by intro c hc; simp [dropTrailingWS] at hc
  | c :: cs => by
    have ih := lastNotWS_dropTrailingWS cs
    show lastNotWS (match dropTrailingWS cs with
      | [] => if isPySpace c then [] else [c]
      | r => c :: r)
    cases hr : dropTrailingWS cs with
    | nil =>
      by_cases hc : isPySpace c = true
      · intro d hd
        rw [if_pos hc] at hd
        simp at hd
      · intro d hd
        rw [if_neg hc] at hd
        simp only [List.getLast?_singleton, Option.some.injEq] at hd
        subst hd
        simpa using hc
    | cons x xs =>
      intro d hd
      rw [List.getLast?_cons_cons] at hd
      exact ih d (hr ▸ hd)

theorem dropWhile_of_headNotWS {l : List Char} (h : headNotWS l) :
    l.dropWhile isPySpace = l := by
  match l with
  | [] => rfl
  | c :: cs =>
    rw [List.dropWhile_cons, if_neg (by simp [show isPySpace c = false from h])]

theorem dropTrailingWS_of_lastNotWS : ∀ {l : List Char}, lastNotWS l → dropTrailingWS l = l
  | [], _ => rfl
  | [c], h => by
    have hc : isPySpace c = false := h c rfl
    simp [dropTrailingWS, hc]
  | c :: d :: ds, h => by
    have htail : lastNotWS (d :: ds) := by
      intro x hx
      exact h x (by rw [List.getLast?_cons_cons]; exact hx)
    have ih := dropTrailingWS_of_lastNotWS htail
    show (match dropTrailingWS (d :: ds) with
      | [] => if isPySpace c then [] else [c]
      | r => c :: r) = c :: d :: ds
    rw [ih]

theorem headNotWS_collapseWS {l : List Char} (h : headNotWS l) :
    headNotWS (collapseWS false l) := by
  match l with
  | [] => trivial
  | c :: cs =>
    have hc : isPySpace c = false := h
    rw [collapseWS_cons_nonspace hc]
    exact hc

theorem lastNotWS_collapseWS :
    ∀ (l : List Char), l ≠ [] → lastNotWS l →
      ∀ b, collapseWS b l ≠ [] ∧ lastNotWS (collapseWS b l)
  | [], hne, _ => absurd rfl hne
  | [c], _, h => by
    have hc : isPySpace c = false := h c rfl
    intro b
    rw [collapseWS_cons_nonspace hc]
    constructor
    · simp
    · intro d hd
      simp only [collapseWS, List.getLast?_singleton, Option.some.injEq] at hd
      subst hd
      exact hc
  | c :: d :: ds, _, h => by
    have htail : lastNotWS (d :: ds) := by
      intro x hx
      exact h x (by rw [List.getLast?_cons_cons]; exact hx)
    have ih := lastNotWS_collapseWS (d :: ds) (by simp) htail
    intro b
    by_cases hc : isPySpace c = true
    · cases b with
      | true =>
        rw [collapseWS_cons_space_t hc]
        exact ih true
      | false =>
        obtain ⟨hne, hlast⟩ := ih true
        rw [collapseWS_cons_space_f hc]
        refine ⟨by simp, ?_⟩
        intro x hx
        rw [getLast?_cons_ne hne] at hx
        exact hlast x hx
    · replace hc : isPySpace c = false := by simpa using hc
      obtain ⟨hne, hlast⟩ := ih false
      rw [collapseWS_cons_nonspace hc]
      refine ⟨by simp, ?_⟩
      intro x hx
      rw [getLast?_cons_ne hne] at hx
      exact hlast x hx

theorem pyStrip_headNotWS (l : List Char) : headNotWS (pyStrip l) :=
  headNotWS_dropTrailingWS (headNotWS_dropWhile l)

theorem pyStrip_lastNotWS (l : List Char) : lastNotWS (pyStrip l) :=
  lastNotWS_dropTrailingWS _

theorem pyStrip_of_normalized {l : List Char} (h1 : headNotWS l) (h2 : lastNotWS l) :
    pyStrip l = l := by
  unfold pyStrip
  rw [dropWhile_of_headNotWS h1, dropTrailingWS_of_lastNotWS h2]

theorem pyStrip_collapseWS_pyStrip (l : List Char) :
    pyStrip (collapseWS false (pyStrip l)) = collapseWS false (pyStrip l) := by
  by_cases hP : pyStrip l = []
  · rw [hP]
    rfl
  · exact pyStrip_of_normalized (headNotWS_collapseWS (pyStrip_headNotWS l))
      ((lastNotWS_collapseWS (pyStrip l) hP (pyStrip_lastNotWS l) false).2)

/-! ## Facts about the upsert deduplication -/

/-- The row the dedup rule keeps for key `k`: the duplicate with the maximum
`resolved` under the nulls-last order, a later occurrence winning ties. -/
def bestFor (k : String) : List Ticket → Option Ticket
  | [] => none
  | r :: rs =>
    if r.issue_key = k then
      match bestFor k rs with
      | none => some r
      | some b => if ascNLLtB b.resolved r.resolved = true then some r else some b
    else bestFor k rs

/-- The last row of the list carrying key `k`. -/
def lastWithKey (k : String) : List Ticket → Option Ticket
  | [] => none
  | r :: rs =>
    match lastWithKey k rs with
    | some b => some b
    | none => if r.issue_key = k then some r else none

def filterKey (k : String) (l : List Ticket) : List Ticket :=
  l.filter (fun x => x.issue_key == k)

theorem lastWithKey_cons (k : String) (r : Ticket) (rs : List Ticket) :
    lastWithKey k (r :: rs) =
      match lastWithKey k rs with
      | some b => some b
      | none => if r.issue_key = k then some r else none := rfl

theorem lastWithKey_mem {k : String} :
    ∀ {m : List Ticket} {b : Ticket}, lastWithKey k m = some b → b ∈ m ∧ b.issue_key = k
  | [], b => by simp [lastWithKey]
  | r :: rs, b => by
    rw [lastWithKey_cons]
    cases hL : lastWithKey k rs with
    | some c =>
      intro h
      obtain rfl : c = b := by simpa using h
      have hc := lastWithKey_mem hL
      exact ⟨List.mem_cons_of_mem _ hc.1, hc.2⟩
    | none =>
      by_cases hr : r.issue_key = k
      · rw [if_pos hr]
        intro h
        obtain rfl : r = b := by simpa using h
        exact ⟨List.mem_cons_self r rs, hr⟩
      · rw [if_neg hr]
        intro h
        simp at h

theorem lastWithKey_eq_none_iff {k : String} :
    ∀ {m : List Ticket}, lastWithKey k m = none ↔ ∀ x ∈ m, x.issue_key ≠ k
  | [] => by simp [lastWithKey]
  | r :: rs => by
    rw [lastWithKey_cons]
    cases hL : lastWithKey k rs with
    | some b =>
      have hb := lastWithKey_mem hL
      constructor
      · intro h
        exact absurd h (by simp)
      · intro hall
        exact absurd hb.2 (hall b (List.mem_cons_of_mem _ hb.1))
    | none =>
      have ih := (lastWithKey_eq_none_iff (m := rs)).mp hL
      by_cases hr : r.issue_key = k
      · rw [if_pos hr]
        constructor
        · intro h
          exact absurd h (by simp)
        · intro hall
          exact absurd hr (hall r (List.mem_cons_self r rs))
      · rw [if_neg hr]
        constructor
        · intro _ x hx
          rcases List.mem_cons.mp hx with rfl | hx
          · exact hr
          · exact ih x hx
        · intro _
          rfl

theorem filterKey_dropDupKeepLast {k : String} :
    ∀ m : List Ticket, filterKey k (dropDupKeepLast m) = (lastWithKey k m).toList
  | [] => rfl
  | r :: rest => by
    have ih := filterKey_dropDupKeepLast (k := k) rest
    rw [lastWithKey_cons]
    by_cases hA : rest.any (fun x => x.issue_key == r.issue_key) = true
    · rw [show dropDupKeepLast (r :: rest) = dropDupKeepLast rest by
        simp only [dropDupKeepLast, hA, if_true]]
      cases hL : lastWithKey k rest with
      | some b =>
        rw [ih, hL]
      | none =>
        have hnk : ∀ x ∈ rest, x.issue_key ≠ k := lastWithKey_eq_none_iff.mp hL
        obtain ⟨x, hx, hxk⟩ : ∃ x ∈ rest, x.issue_key = r.issue_key := by
          simpa [List.any_eq_true, beq_iff_eq] using hA
        have hr : r.issue_key ≠ k := fun e => hnk x hx (hxk.trans e)
        rw [if_neg hr, ih, hL]
    · rw [show dropDupKeepLast (r :: rest) = r :: dropDupKeepLast rest by
        simp only [dropDupKeepLast, hA]
        rw [if_neg (by simp [hA])]]
      by_cases hr : r.issue_key = k
      · have hnone : lastWithKey k rest = none := by
          rw [lastWithKey_eq_none_iff]
          intro x hx e
          have : x.issue_key = r.issue_key := e.trans hr.symm
          exact absurd (by simpa [List.any_eq_true, beq_iff_eq] using ⟨x, hx, this⟩) hA
        rw [hnone, if_pos hr]
        show filterKey k (r :: dropDupKeepLast rest) = [r]
        unfold filterKey
        rw [List.filter_cons, if_pos (by simpa using hr)]
        have : filterKey k (dropDupKeepLast rest) = [] := by
          rw [ih, hnone]
          rfl
        unfold filterKey at this
        rw [this]
      · cases hL : lastWithKey k rest with
        | some b =>
          show filterKey k (r :: dropDupKeepLast rest) = [b]
          unfold filterKey
          rw [List.filter_cons, if_neg (by simpa using hr)]
          have := ih
          rw [hL] at this
          exact this
        | none =>
          rw [if_neg hr]
          show filterKey k (r :: dropDupKeepLast rest) = []
          unfold filterKey
          rw [List.filter_cons, if_neg (by simpa using hr)]
          have := ih
          rw [hL] at this
          exact this

theorem rowLtB_eq_false_iff {a b : Ticket} :
    rowLtB a b = false ↔
      strLtB a.issue_key b.issue_key = false ∧
        (a.issue_key ≠ b.issue_key ∨ ascNLLtB a.resolved b.resolved = false) := by
  unfold rowLtB
  rw [Bool.or_eq_false_iff, Bool.and_eq_false_iff]
  constructor
  · rintro ⟨h1, h2⟩
    refine ⟨h1, ?_⟩
    rcases h2 with h | h
    · exact Or.inl (by simpa using h)
    · exact Or.inr h
  · rintro ⟨h1, h2⟩
    refine ⟨h1, ?_⟩
    rcases h2 with h | h
    · exact Or.inl (by simpa using h)
    · exact Or.inr h

theorem asc_false_of_rowLe {r b : Ticket} (h : rowLe r b) (hk : b.issue_key = r.issue_key) :
    ascNLLtB b.resolved r.resolved = false := by
  rcases (rowLtB_eq_false_iff.mp h).2 with hne | hf
  · exact absurd hk hne
  · exact hf

theorem lastWithKey_orderedInsert {k : String} (r : Ticket) :
    ∀ {m : List Ticket}, List.Sorted rowLe m →
      lastWithKey k (List.orderedInsert rowLe r m) =
        if r.issue_key = k then
          some (match lastWithKey k m with
                | none => r
                | some b => if ascNLLtB b.resolved r.resolved = true then r else b)
        else lastWithKey k m
  | [], _ => by
    by_cases hr : r.issue_key = k <;> simp [lastWithKey, hr]
  | x :: xs, hs => by
    have hsx : List.Sorted rowLe xs := (List.sorted_cons.mp hs).2
    by_cases hle : rowLe r x
    · rw [List.orderedInsert_of_le _ _ hle, lastWithKey_cons k r (x :: xs)]
      cases hL : lastWithKey k (x :: xs) with
      | some b =>
        have hb := lastWithKey_mem hL
        by_cases hr : r.issue_key = k
        · have hrb : rowLe r b := by
            rcases List.mem_cons.mp hb.1 with rfl | hbxs
            · exact hle
            · exact rowLe_trans hle (List.rel_of_sorted_cons hs b hbxs)
          have hasc := asc_false_of_rowLe hrb (hb.2.trans hr.symm)
          simp [hr, hasc]
        · simp [hr]
      | none =>
        by_cases hr : r.issue_key = k <;> simp [hr]
    · have hxr : rowLtB x r = true := by
        by_cases h : rowLtB x r = true
        · exact h
        · exact absurd (by simpa using h) hle
      have hord : List.orderedInsert rowLe r (x :: xs) =
          x :: List.orderedInsert rowLe r xs := by
        simp only [List.orderedInsert, if_neg hle]
      rw [hord, lastWithKey_cons k x (List.orderedInsert rowLe r xs),
        lastWithKey_orderedInsert (k := k) r hsx, lastWithKey_cons k x xs]
      by_cases hr : r.issue_key = k
      · cases hxs : lastWithKey k xs with
        | some b => simp [hr]
        | none =>
          by_cases hxk : x.issue_key = k
          · have hasc : ascNLLtB x.resolved r.resolved = true := by
              have h0 := hxr
              simp only [rowLtB, Bool.or_eq_true, Bool.and_eq_true, beq_iff_eq] at h0
              rcases h0 with h0 | h0
              · rw [hxk, hr] at h0
                exact absurd h0 (by simp [strLtB_irrefl])
              · exact h0.2
            simp [hr, hxk, hasc]
          · simp [hr, hxk]
      · cases hxs : lastWithKey k xs with
        | some b => simp [hr]
        | none =>
          by_cases hxk : x.issue_key = k
          · simp [hr, hxk]
          · simp [hr, hxk]

theorem bestFor_cons (k : String) (r : Ticket) (rs : List Ticket) :
    bestFor k (r :: rs) =
      if r.issue_key = k then
        match bestFor k rs with
        | none => some r
        | some b => if ascNLLtB b.resolved r.resolved = true then some r else some b
      else bestFor k rs := rfl

theorem lastWithKey_sortTickets (k : String) :
    ∀ l : List Ticket, lastWithKey k (sortTickets l) = bestFor k l
  | [] => rfl
  | r :: l => by
    have ih := lastWithKey_sortTickets k l
    have hs : List.Sorted rowLe (sortTickets l) := List.sorted_insertionSort rowLe l
    show lastWithKey k (List.orderedInsert rowLe r (sortTickets l)) = _
    rw [lastWithKey_orderedInsert r hs, ih, bestFor_cons]
    by_cases hr : r.issue_key = k
    · rw [if_pos hr, if_pos hr]
      cases bestFor k l with
      | none => rfl
      | some b =>
        by_cases hasc : ascNLLtB b.resolved r.resolved = true
        · simp [hasc]
        · simp [hasc]
    · rw [if_neg hr, if_neg hr]

theorem upsert_filterKey (cur : List Ticket) (batch : List RawTicketRow) (k : String) :
    filterKey k (upsert_tickets cur batch) =
      (bestFor k (cur ++ processBatch batch)).toList := by
  unfold upsert_tickets
  rw [filterKey_dropDupKeepLast, lastWithKey_sortTickets]

theorem dropDupKeepLast_cons (r : Ticket) (rest : List Ticket) :
    dropDupKeepLast (r :: rest) =
      if rest.any (fun x => x.issue_key == r.issue_key) then dropDupKeepLast rest
      else r :: dropDupKeepLast rest := rfl

theorem mem_dropDupKeepLast : ∀ {m : List Ticket} {x : Ticket}, x ∈ dropDupKeepLast m → x ∈ m
  | [], x => by simp [dropDupKeepLast]
  | r :: rest, x => by
    rw [dropDupKeepLast_cons]
    by_cases hA : rest.any (fun y => y.issue_key == r.issue_key) = true
    · rw [if_pos hA]
      exact fun h => List.mem_cons_of_mem _ (mem_dropDupKeepLast h)
    · rw [if_neg hA]
      intro h
      rcases List.mem_cons.mp h with rfl | h
      · exact List.mem_cons_self ..
      · exact List.mem_cons_of_mem _ (mem_dropDupKeepLast h)

theorem mem_upsert_tickets {cur : List Ticket} {batch : List RawTicketRow} {x : Ticket}
    (h : x ∈ upsert_tickets cur batch) : x ∈ cur ∨ x ∈ processBatch batch := by
  unfold upsert_tickets at h
  have h1 := mem_dropDupKeepLast h
  have h2 : x ∈ cur ++ processBatch batch :=
    (List.perm_insertionSort rowLe _).mem_iff.mp h1
  exact List.mem_append.mp h2

theorem bestFor_none_of_null {k : String} :
    ∀ {l : List Ticket}, (∃ r ∈ l, r.issue_key = k ∧ r.resolved = none) →
      ∃ b, bestFor k l = some b ∧ b.resolved = none
  | [], h => by simp at h
  | r :: rs, h => by
    rw [bestFor_cons]
    rcases h with ⟨x, hx, hxk, hxres⟩
    rcases List.mem_cons.mp hx with rfl | hxs
    · rw [if_pos hxk]
      cases hb : bestFor k rs with
      | none => exact ⟨x, rfl, hxres⟩
      | some b =>
        cases hbres : b.resolved with
        | none => exact ⟨b, by simp [hbres, ascNLLtB], hbres⟩
        | some q => exact ⟨x, by simp [hbres, hxres, ascNLLtB], hxres⟩
    · obtain ⟨b, hb, hbres⟩ := bestFor_none_of_null (l := rs) ⟨x, hxs, hxk, hxres⟩
      by_cases hr : r.issue_key = k
      · rw [if_pos hr, hb]
        exact ⟨b, by simp [hbres, ascNLLtB], hbres⟩
      · rw [if_neg hr, hb]
        exact ⟨b, rfl, hbres⟩

/-! ## Facts about the join & metrics engine -/

theorem mem_processBatch {rows : List RawTicketRow} {t : Ticket} (h : t ∈ processBatch rows) :
    ∃ r ∈ rows, t = mkStored r ∧ r.status = "Permanently Closed" := by
  unfold processBatch at h
  rw [List.mem_map] at h
  obtain ⟨r, hr, rfl⟩ := h
  rw [List.mem_filter] at hr
  exact ⟨r, hr.1, rfl, by simpa using hr.2⟩

theorem mem_load_joined {tickets : List Ticket} {sla : List SlaRow} {j : Joined}
    (h : j ∈ load_joined tickets sla) : ∃ t fr res, j = mkJoined t fr res := by
  unfold load_joined at h
  rw [List.mem_flatMap] at h
  obtain ⟨t, _, hj⟩ := h
  cases hf : sla.filter
      (fun r => r.crm_company == t.crm_company && r.severity == t.severity) with
  | nil =>
    simp only [joinSLA, hf, List.mem_singleton] at hj
    exact ⟨t, none, none, hj⟩
  | cons s0 ss =>
    simp only [joinSLA, hf, List.mem_map] at hj
    obtain ⟨s, _, rfl⟩ := hj
    exact ⟨t, s.first_response, s.resolution, rfl⟩

theorem exceedPct_cases (delta denom : Option ℚ) :
    (exceedPct delta denom = some 0 ∧ optGtZero delta = false) ∨
    (∃ d w, delta = some d ∧ 0 < d ∧ denom = some w ∧
      exceedPct delta denom = some (d / max w 1 * 100) ∧ 0 < d / max w 1 * 100) ∨
    (∃ d, delta = some d ∧ 0 < d ∧ denom = none ∧ exceedPct delta denom = none) := by
  by_cases hg : optGtZero delta = true
  · obtain ⟨d, rfl, hd⟩ : ∃ d, delta = some d ∧ 0 < d := by
      cases delta with
      | none => simp [optGtZero] at hg
      | some d => exact ⟨d, rfl, by simpa [optGtZero] using hg⟩
    cases denom with
    | none =>
      refine Or.inr (Or.inr ⟨d, rfl, hd, rfl, ?_⟩)
      simp [exceedPct, hg, optMul100, optDiv, npClip1]
    | some w =>
      have hw : (0 : ℚ) < max w 1 := lt_of_lt_of_le one_pos (le_max_right w 1)
      have hpos : 0 < d / max w 1 * 100 :=
        mul_pos (div_pos hd hw) (by norm_num)
      refine Or.inr (Or.inl ⟨d, w, rfl, hd, rfl, ?_, hpos⟩)
      simp [exceedPct, hg, optMul100, optDiv, npClip1]
  · replace hg : optGtZero delta = false := by simpa using hg
    exact Or.inl ⟨by simp [exceedPct, hg], hg⟩

theorem frWithin_eq_true {t : Ticket} (h : frWithin t = true) :
    ∃ a g, t.fr_actual = some a ∧ t.fr_target = some g ∧ a ≤ g := by
  unfold frWithin at h
  cases ha : t.fr_actual with
  | none => rw [ha] at h; simp at h
  | some a =>
    cases hg : t.fr_target with
    | none => rw [hg] at h; simp at h
    | some g =>
      rw [ha, hg] at h
      simp only [optLeB, Bool.and_eq_true, decide_eq_true_eq] at h
      exact ⟨a, g, rfl, rfl, h.1.1⟩

theorem optLeB_eq_true {a b : Option ℚ} (h : optLeB a b = true) :
    ∃ x y, a = some x ∧ b = some y ∧ x ≤ y := by
  cases a with
  | none => simp [optLeB] at h
  | some x =>
    cases b with
    | none => simp [optLeB] at h
    | some y => exact ⟨x, y, rfl, rfl, by simpa [optLeB] using h⟩

theorem exceedPct_of_le {delta denom : Option ℚ} {d : ℚ} (hd : delta = some d) (h : d ≤ 0) :
    exceedPct delta denom = some 0 := by
  subst hd
  have : optGtZero (some d) = false := by simpa [optGtZero, not_lt] using h
  simp [exceedPct, this]

theorem emitClean_ne_nan (v : Option ℚ) : emitClean v ≠ JVal.nan := by
  cases v <;> simp [emitClean]

theorem optGtZero_eq_true {x : Option ℚ} (h : optGtZero x = true) :
    ∃ d, x = some d ∧ 0 < d := by
  cases x with
  | none => simp [optGtZero] at h
  | some d => exact ⟨d, rfl, by simpa [optGtZero] using h⟩

theorem optSub_eq_some {a b : Option ℚ} {d : ℚ} (h : optSub a b = some d) :
    ∃ x y, a = some x ∧ b = some y ∧ d = x - y := by
  cases a with
  | none => simp [optSub] at h
  | some x =>
    cases b with
    | none => simp [optSub] at h
    | some y => exact ⟨x, y, rfl, rfl, by simpa [optSub, eq_comm] using h⟩

/-! ## Claims -/

/-- Stored ticket whose `created` failed to parse (NaT) while both
first-response timestamps are present and 60 minutes late. -/
def c1Ticket : Ticket :=
  { issue_key := "C1-1", severity := "Severity 1", status := "Permanently Closed",
    assignee := "alice", environment := "prod", product := "widget", summary := "s",
    crm_company := "Acme", fr_target := some 40, fr_actual := some 100,
    created := none, updated := none, resolved := some 500, reopen_count := 0,
    resolution_minutes := none }

unseal Rat.sub Rat.mul Rat.inv Rat.add in
/-- Claim C1, counterexample: the single joined record built from
`c1Ticket` (late first response, missing `created`) carries
`first_response_exceed_pct = NaN` (`none`), which is not a number `≥ 0`:
`np.clip` propagates the NaN window into the division. -/
theorem claim1_counterexample :
    (load_joined [c1Ticket] []).map (fun j => j.first_response_exceed_pct) = [none] := by
  decide

/-- Claim C1, amended: both exceed percentages equal exactly 0 whenever the
corresponding within-SLA boolean is true; `resolution_exceed_pct` is always
a number `≥ 0`; `first_response_exceed_pct` is `≥ 0` whenever it is a
number — it is NaN exactly in the late-first-response-with-null-`created`
corner shown by the counterexample. -/
theorem claim1_amended (tickets : List Ticket) (sla : List SlaRow) (j : Joined)
    (h : j ∈ load_joined tickets sla) :
    (j.first_response_within_sla = true → j.first_response_exceed_pct = some 0) ∧
    (j.resolution_within_sla = true → j.resolution_exceed_pct = some 0) ∧
    (∀ q, j.first_response_exceed_pct = some q → 0 ≤ q) ∧
    (∃ q, j.resolution_exceed_pct = some q ∧ 0 ≤ q) := by
  obtain ⟨t, fr, res, rfl⟩ := mem_load_joined h
  refine ⟨?_, ?_, ?_, ?_⟩
  · intro hw
    obtain ⟨a, g, ha, hg, hle⟩ := frWithin_eq_true hw
    show exceedPct (deltaFR t) (windowFR t) = some 0
    refine exceedPct_of_le (d := a - g) ?_ (by linarith)
    simp [deltaFR, optSub, ha, hg]
  · intro hw
    obtain ⟨x, y, hx, hy, hle⟩ := optLeB_eq_true hw
    show exceedPct (optSub t.resolution_minutes res) res = some 0
    refine exceedPct_of_le (d := x - y) ?_ (by linarith)
    simp [optSub, hx, hy]
  · intro q hq
    have hq' : exceedPct (deltaFR t) (windowFR t) = some q := hq
    rcases exceedPct_cases (deltaFR t) (windowFR t) with
      ⟨h0, _⟩ | ⟨d, w, _, _, _, hpq, hpos⟩ | ⟨d, _, _, _, hnone⟩
    · obtain rfl : (0 : ℚ) = q := by simpa using h0.symm.trans hq'
      exact le_refl 0
    · obtain rfl : d / max w 1 * 100 = q := by simpa using hpq.symm.trans hq'
      exact le_of_lt hpos
    · exact absurd (hnone.symm.trans hq') (by simp)
  · rcases exceedPct_cases (optSub t.resolution_minutes res) res with
      ⟨h0, _⟩ | ⟨d, w, _, _, _, hpq, hpos⟩ | ⟨d, hd, _, hdenom, _⟩
    · exact ⟨0, h0, le_refl 0⟩
    · exact ⟨_, hpq, le_of_lt hpos⟩
    · rw [hdenom] at hd
      cases hrm : t.resolution_minutes <;> rw [hrm] at hd <;> simp [optSub] at hd

/-- Within-SLA ticket used to exercise the amended claim C1. -/
def c1wTicket : Ticket :=
  { issue_key := "C1-2", severity := "Severity 2", status := "Permanently Closed",
    assignee := "bob", environment := "prod", product := "widget", summary := "s",
    crm_company := "Acme", fr_target := some 40, fr_actual := some 10,
    created := some 0, updated := none, resolved := some 100, reopen_count := 0,
    resolution_minutes := some 100 }

unseal Rat.sub Rat.mul Rat.inv Rat.add in
/-- Witness for the amended claim C1 at a concrete within-SLA input. -/
theorem claim1_amended_witness :
    (mkJoined c1wTicket none none ∈ load_joined [c1wTicket] []) ∧
    (mkJoined c1wTicket none none).first_response_within_sla = true ∧
    (mkJoined c1wTicket none none).first_response_exceed_pct = some 0 :=
  ⟨by decide, by decide,
    (claim1_amended [c1wTicket] [] (mkJoined c1wTicket none none) (by decide)).1 (by decide)⟩

/-- Stored ticket with null `created`, both first-response timestamps
present, and the response 50 minutes late. -/
def c2Ticket : Ticket :=
  { issue_key := "C2-1", severity := "Severity 1", status := "Permanently Closed",
    assignee := "alice", environment := "prod", product := "widget", summary := "s",
    crm_company := "Acme", fr_target := some 50, fr_actual := some 100,
    created := none, updated := none, resolved := some 500, reopen_count := 0,
    resolution_minutes := none }

unseal Rat.sub Rat.mul Rat.inv Rat.add in
/-- Claim C2, counterexample: `c2Ticket` has a null required timestamp
(`created`), yet `first_response_exceed_pct` is NaN (`none`), not `0`. -/
theorem claim2_counterexample :
    c2Ticket.created = none ∧
    (load_joined [c2Ticket] []).map (fun j => j.first_response_exceed_pct) ≠ [some 0] := by
  refine ⟨rfl, ?_⟩
  decide

/-- Claim C2, amended: `first_response_exceed_pct` equals 0 whenever
`fr_actual` or `fr_target` is null; when `created` is null it equals 0 if
the record is not first-response-late and is NaN (`none`) otherwise. -/
theorem claim2_amended (tickets : List Ticket) (sla : List SlaRow) (j : Joined)
    (h : j ∈ load_joined tickets sla) :
    ((j.ticket.fr_actual = none ∨ j.ticket.fr_target = none) →
      j.first_response_exceed_pct = some 0) ∧
    (j.ticket.created = none →
      j.first_response_exceed_pct =
        if optGtZero (deltaFR j.ticket) = true then none else some 0) := by
  obtain ⟨t, fr, res, rfl⟩ := mem_load_joined h
  constructor
  · intro hnull
    have hnull' : t.fr_actual = none ∨ t.fr_target = none := hnull
    show exceedPct (deltaFR t) (windowFR t) = some 0
    have hd : deltaFR t = none := by
      rcases hnull' with hn | hn
      · simp [deltaFR, optSub, hn]
      · cases ha : t.fr_actual <;> simp [deltaFR, optSub, hn, ha]
    simp [exceedPct, hd, optGtZero]
  · intro hc
    have hc' : t.created = none := hc
    show exceedPct (deltaFR t) (windowFR t) =
      if optGtZero (deltaFR t) = true then none else some 0
    by_cases hg : optGtZero (deltaFR t) = true
    · rw [if_pos hg]
      obtain ⟨d, hd, hdpos⟩ := optGtZero_eq_true hg
      obtain ⟨a, g, _, hgt, _⟩ := optSub_eq_some hd
      have hw : windowFR t = none := by
        simp [windowFR, optSub, hgt, hc']
      simp [exceedPct, hg, hd, hw, optDiv, npClip1, optMul100, optGtZero, hdpos]
    · replace hg : optGtZero (deltaFR t) = false := by simpa using hg
      simp [exceedPct, hg]

/-- Ticket with null `created` that is not first-response-late. -/
def c2wTicket : Ticket :=
  { issue_key := "C2-2", severity := "Severity 2", status := "Permanently Closed",
    assignee := "bob", environment := "prod", product := "widget", summary := "s",
    crm_company := "Acme", fr_target := none, fr_actual := some 10,
    created := none, updated := none, resolved := some 100, reopen_count := 0,
    resolution_minutes := none }

unseal Rat.sub Rat.mul Rat.inv Rat.add in
/-- Witness for the amended claim C2 at a concrete input whose `fr_target`
is null. -/
theorem claim2_amended_witness :
    (mkJoined c2wTicket none none ∈ load_joined [c2wTicket] []) ∧
    (mkJoined c2wTicket none none).first_response_exceed_pct = some 0 :=
  ⟨by decide,
    (claim2_amended [c2wTicket] [] (mkJoined c2wTicket none none) (by decide)).1
      (Or.inr rfl)⟩

/-- Claim C3, confirmed: whenever an exceed percentage is computed from a
late delta, the denominator is the reference value clipped below at 1.0
(NumPy maximum, which propagates NaN), so the computed percentage is a
positive rational or NaN — never negative, never infinite (the divisor is
at least 1, so no division by zero can occur). -/
theorem claim3_exceed_denominator (tickets : List Ticket) (sla : List SlaRow) (j : Joined)
    (h : j ∈ load_joined tickets sla) (d : ℚ) :
    (deltaFR j.ticket = some d → 0 < d →
      j.first_response_exceed_pct = (windowFR j.ticket).map (fun w => d / max w 1 * 100) ∧
      ∀ q, j.first_response_exceed_pct = some q → 0 < q) ∧
    (optSub j.ticket.resolution_minutes j.resolution = some d → 0 < d →
      ∃ sr, j.resolution = some sr ∧
        j.resolution_exceed_pct = some (d / max sr 1 * 100) ∧
        0 < d / max sr 1 * 100) := by
  obtain ⟨t, fr, res, rfl⟩ := mem_load_joined h
  constructor
  · intro hd hdpos
    have hd' : deltaFR t = some d := hd
    have hgs : optGtZero (some d) = true := by simpa [optGtZero] using hdpos
    have hg : optGtZero (deltaFR t) = true := by rw [hd']; exact hgs
    constructor
    · show exceedPct (deltaFR t) (windowFR t) =
        (windowFR t).map (fun w => d / max w 1 * 100)
      cases hw : windowFR t with
      | none => simp [exceedPct, hgs, hd', hw, optDiv, npClip1, optMul100]
      | some w => simp [exceedPct, hgs, hd', hw, optDiv, npClip1, optMul100]
    · intro q hq
      have hq' : exceedPct (deltaFR t) (windowFR t) = some q := hq
      rcases exceedPct_cases (deltaFR t) (windowFR t) with
        ⟨_, hgf⟩ | ⟨d', w, _, _, _, hpq, hpos⟩ | ⟨_, _, _, _, hnone⟩
      · rw [hgf] at hg
        cases hg
      · obtain rfl : d' / max w 1 * 100 = q := by simpa using hpq.symm.trans hq'
        exact hpos
      · exact absurd (hnone.symm.trans hq') (by simp)
  · intro hd hdpos
    have hd' : optSub t.resolution_minutes res = some d := hd
    obtain ⟨x, y, hx, hy, hdxy⟩ := optSub_eq_some hd'
    have hd2 : optSub t.resolution_minutes (some y) = some d := hy ▸ hd'
    have hgs : optGtZero (some d) = true := by simpa [optGtZero] using hdpos
    have hw : (0 : ℚ) < max y 1 := lt_of_lt_of_le one_pos (le_max_right y 1)
    refine ⟨y, hy, ?_, mul_pos (div_pos hdpos hw) (by norm_num)⟩
    show exceedPct (optSub t.resolution_minutes res) res = some (d / max y 1 * 100)
    rw [hy]
    simp [exceedPct, hgs, hd2, optDiv, npClip1, optMul100]

/-- Ticket created exactly at its first-response target (window 0) with a
late actual response, and a 60-minute-late resolution. -/
def c3Ticket : Ticket :=
  { issue_key := "C3-1", severity := "Severity 1", status := "Permanently Closed",
    assignee := "alice", environment := "prod", product := "widget", summary := "s",
    crm_company := "Acme", fr_target := some 0, fr_actual := some 5,
    created := some 0, updated := none, resolved := some 180, reopen_count := 0,
    resolution_minutes := some 180 }

/-- SLA row matching `c3Ticket`. -/
def c3Sla : SlaRow :=
  { crm_company := "Acme", severity := "Severity 1",
    first_response := some 30, resolution := some 120 }

unseal Rat.sub Rat.mul Rat.inv Rat.add in
/-- Witness for claim C3 at a concrete input with `fr_target == created`
(window 0, denominator clipped to 1). -/
theorem claim3_witness :
    (mkJoined c3Ticket (some 30) (some 120) ∈ load_joined [c3Ticket] [c3Sla]) ∧
    deltaFR c3Ticket = some 5 ∧ (0 : ℚ) < 5 ∧
    (mkJoined c3Ticket (some 30) (some 120)).first_response_exceed_pct =
      (windowFR c3Ticket).map (fun w => 5 / max w 1 * 100) :=
  ⟨by decide, by decide, by norm_num,
    ((claim3_exceed_denominator [c3Ticket] [c3Sla]
      (mkJoined c3Ticket (some 30) (some 120)) (by decide) 5).1 (by decide) (by norm_num)).1⟩

/-- Stored row with key "A" resolved at time 100. -/
def c4Cur : Ticket :=
  { issue_key := "A", severity := "Severity 1", status := "Permanently Closed",
    assignee := "alice", environment := "prod", product := "widget", summary := "s",
    crm_company := "Acme", fr_target := none, fr_actual := none,
    created := some 0, updated := none, resolved := some 100, reopen_count := 0,
    resolution_minutes := some 100 }

/-- Uploaded duplicate of key "A" whose `resolved` did not parse (NaT). -/
def c4New : RawTicketRow :=
  { issue_key := "A", severity := "Severity 1", status := "Permanently Closed",
    assignee := "bob", environment := "prod", product := "widget", summary := "s",
    crm_company := "Acme", fr_target := none, fr_actual := none, created := some 0,
    updated := none, resolved := none, reopen_raw := none }

unseal Rat.sub Rat.mul Rat.inv Rat.add in
/-- Claim C4, counterexample: the concatenated rows for key "A" carry
`resolved` timestamps `{100, null}`; the row with the maximum `resolved`
timestamp is the stored one, yet the upsert keeps the null-`resolved` row
(`sort_values` places NaT last and `keep="last"` then selects it). -/
theorem claim4_counterexample :
    ([c4Cur] ++ processBatch [c4New]).map (fun t => t.resolved) = [some 100, none] ∧
    (upsert_tickets [c4Cur] [c4New]).map (fun t => t.resolved) = [none] := by
  constructor <;> decide

/-- Claim C4, amended: after an upload the stored table holds at most one
row per `issue_key`, and the row kept for key `k` is the maximum duplicate
under the order that places a null `resolved` after (above) every concrete
timestamp — pandas sorts with the default `na_position="last"` — with the
last occurrence in concatenated order winning ties.  In particular, when
every duplicate has a concrete `resolved`, the latest-resolved row wins. -/
theorem claim4_amended (cur : List Ticket) (batch : List RawTicketRow) (k : String) :
    filterKey k (upsert_tickets cur batch) =
      (bestFor k (cur ++ processBatch batch)).toList ∧
    (filterKey k (upsert_tickets cur batch)).length ≤ 1 := by
  refine ⟨upsert_filterKey cur batch k, ?_⟩
  rw [upsert_filterKey]
  cases bestFor k (cur ++ processBatch batch) <;> simp

/-- Claim C10, confirmed: a null `resolved` sorts after every concrete
timestamp of the same key, so when the duplicates of a key include a
null-`resolved` row, the row kept by the upsert has a null `resolved`. -/
theorem claim10_null_resolved_wins (cur : List Ticket) (batch : List RawTicketRow)
    (k : String)
    (h : ∃ r ∈ cur ++ processBatch batch, r.issue_key = k ∧ r.resolved = none) :
    ∃ b, filterKey k (upsert_tickets cur batch) = [b] ∧ b.resolved = none := by
  obtain ⟨b, hb, hbres⟩ := bestFor_none_of_null h
  refine ⟨b, ?_, hbres⟩
  rw [upsert_filterKey, hb]
  rfl

unseal Rat.sub Rat.mul Rat.inv Rat.add in
/-- Witness for claim C10 at a concrete input. -/
theorem claim10_witness :
    (∃ r ∈ [c4Cur] ++ processBatch [c4New], r.issue_key = "A" ∧ r.resolved = none) ∧
    ∃ b, filterKey "A" (upsert_tickets [c4Cur] [c4New]) = [b] ∧ b.resolved = none :=
  ⟨by decide, claim10_null_resolved_wins [c4Cur] [c4New] "A" (by decide)⟩

/-- Uploaded row whose `Reopen Count` parses to the negative number -3. -/
def c5Neg : RawTicketRow :=
  { issue_key := "C5-1", severity := "Severity 1", status := "Permanently Closed",
    assignee := "alice", environment := "prod", product := "widget", summary := "s",
    crm_company := "Acme", fr_target := none, fr_actual := none, created := some 0,
    updated := none, resolved := some 100, reopen_raw := some (-3) }

unseal Rat.sub Rat.mul Rat.inv Rat.add in
/-- Claim C5, counterexample: a parseable negative `Reopen Count` is stored
as a negative integer — `astype(int)` truncates but does not clamp. -/
theorem claim5_counterexample :
    (upsert_tickets [] [c5Neg]).map (fun t => t.reopen_count) = [-3] ∧
    ¬(0 : ℤ) ≤ -3 := by
  constructor <;> decide

/-- Claim C5, amended: every stored row's `reopen_count` is the integer
truncation of the parsed upload value, equal to 0 when the value is missing
or unparseable; it is non-negative whenever the parsed value is
non-negative, but a negative parsed value is stored negative. -/
theorem claim5_amended (rows : List RawTicketRow) (t : Ticket)
    (h : t ∈ processBatch rows) :
    ∃ r ∈ rows, t.reopen_count = reopenOf r.reopen_raw ∧
      (r.reopen_raw = none → t.reopen_count = 0) ∧
      (∀ q, r.reopen_raw = some q → 0 ≤ q → 0 ≤ t.reopen_count) := by
  obtain ⟨r, hr, rfl, _⟩ := mem_processBatch h
  refine ⟨r, hr, rfl, ?_, ?_⟩
  · intro hn
    show reopenOf r.reopen_raw = 0
    rw [hn]
    rfl
  · intro q hq hq0
    show (0 : ℤ) ≤ reopenOf r.reopen_raw
    rw [hq]
    show (0 : ℤ) ≤ truncFloat q
    unfold truncFloat
    rw [if_pos hq0]
    exact Int.floor_nonneg.mpr hq0

/-- Uploaded row with a well-formed reopen count of 2. -/
def c5Pos : RawTicketRow :=
  { issue_key := "C5-2", severity := "Severity 1", status := "Permanently Closed",
    assignee := "alice", environment := "prod", product := "widget", summary := "s",
    crm_company := "Acme", fr_target := none, fr_actual := none, created := some 0,
    updated := none, resolved := some 100, reopen_raw := some 2 }

unseal Rat.sub Rat.mul Rat.inv Rat.add in
/-- Witness for the amended claim C5 at a concrete input. -/
theorem claim5_amended_witness :
    (mkStored c5Pos ∈ processBatch [c5Pos]) ∧
    ∃ r ∈ [c5Pos], (mkStored c5Pos).reopen_count = reopenOf r.reopen_raw ∧
      (r.reopen_raw = none → (mkStored c5Pos).reopen_count = 0) ∧
      (∀ q, r.reopen_raw = some q → 0 ≤ q → 0 ≤ (mkStored c5Pos).reopen_count) :=
  ⟨by decide, claim5_amended [c5Pos] (mkStored c5Pos) (by decide)⟩

/-- Claim C6, confirmed: when a required ticket header is absent, the
upload fails with a `MissingColumns` error carrying exactly the missing
required header names in (Python) sorted order, and the stored table is
unchanged. -/
theorem claim6_missing_columns (st : Option (List Ticket)) (u : TicketsUpload)
    (hcsv : csvName u.filename = true)
    (hmiss : ∃ c ∈ REQUIRED_TICKET_COLS, c ∉ u.headers) :
    upload_tickets st u =
      (st, Except.error (UploadError.missingColumns (missingOf u.headers))) ∧
    List.Sorted strLe (missingOf u.headers) ∧
    ∀ c, c ∈ missingOf u.headers ↔ (c ∈ REQUIRED_TICKET_COLS ∧ c ∉ u.headers) := by
  have hmemiff : ∀ c, c ∈ missingOf u.headers ↔
      (c ∈ REQUIRED_TICKET_COLS ∧ c ∉ u.headers) := by
    intro c
    unfold missingOf
    simp [List.mem_filter]
  have hne : missingOf u.headers ≠ [] := by
    obtain ⟨c, hc1, hc2⟩ := hmiss
    intro he
    have hcm : c ∈ missingOf u.headers := (hmemiff c).mpr ⟨hc1, hc2⟩
    rw [he] at hcm
    simp at hcm
  refine ⟨?_, List.sorted_insertionSort strLe _, hmemiff⟩
  unfold upload_tickets
  rw [if_pos hcsv, if_neg hne]

/-- Upload request missing most required headers. -/
def c6Upload : TicketsUpload :=
  { filename := "t.csv", headers := ["Issue key", "Created"], rows := [] }

/-- Witness for claim C6: the upload is rejected and the message lists the
nine missing required headers in sorted order; the store is untouched. -/
theorem claim6_witness :
    upload_tickets none c6Upload =
      (none, Except.error (UploadError.missingColumns (missingOf c6Upload.headers))) ∧
    missingOf c6Upload.headers =
      ["Assignee", "Custom field (CRM Company)",
       "Custom field (First Response SLA Actual Date)",
       "Custom field (First Response SLA Target Date)", "Custom field (Product)",
       "Custom field (Reopen Count)", "Custom field (Severity)", "Resolved", "Status"] :=
  ⟨(claim6_missing_columns none c6Upload (by decide) (by decide)).1, by decide⟩

/-- Claim C7, confirmed: the company-name normalization (strip, then
collapse internal whitespace runs to one space) is idempotent, and
normalizes the spec's concrete example as stated. -/
theorem claim7_normalize_idempotent :
    (∀ s : String, normalizeCompany (normalizeCompany s) = normalizeCompany s) ∧
    normalizeCompany "Acme   Inc. " = "Acme Inc." := by
  constructor
  · intro s
    unfold normalizeCompany
    refine congrArg String.mk ?_
    show collapseWS false (pyStrip (collapseWS false (pyStrip s.data))) =
      collapseWS false (pyStrip s.data)
    rw [pyStrip_collapseWS_pyStrip]
    exact (collapseWS_twice (pyStrip s.data)).1
  · decide

theorem upload_tickets_store_inv {st : Option (List Ticket)} {u : TicketsUpload}
    (hst : ∀ l t, st = some l → t ∈ l → t.status = "Permanently Closed") :
    ∀ l t, (upload_tickets st u).1 = some l → t ∈ l →
      t.status = "Permanently Closed" := by
  intro l t hl hmem
  unfold upload_tickets at hl
  by_cases hf : csvName u.filename = true
  · rw [if_pos hf] at hl
    by_cases hm : missingOf u.headers = []
    · rw [if_pos hm] at hl
      obtain rfl : upsert_tickets (st.getD []) u.rows = l := by simpa using hl
      rcases mem_upsert_tickets hmem with hc | hp
      · cases st with
        | none => simp at hc
        | some l0 => exact hst l0 t rfl hc
      · obtain ⟨r, _, rfl, hrs⟩ := mem_processBatch hp
        exact hrs
    · rw [if_neg hm] at hl
      exact hst l t hl hmem
  · rw [if_neg hf] at hl
    exact hst l t hl hmem

theorem runUploads_status_inv :
    ∀ (batches : List TicketsUpload) (st : Option (List Ticket)),
      (∀ l t, st = some l → t ∈ l → t.status = "Permanently Closed") →
      ∀ l t, batches.foldl (fun s u => (upload_tickets s u).1) st = some l → t ∈ l →
        t.status = "Permanently Closed"
  | [], _, hst => by simpa using hst
  | u :: bs, st, hst => by
    rw [List.foldl_cons]
    exact runUploads_status_inv bs ((upload_tickets st u).1) (upload_tickets_store_inv hst)

/-- Claim C8, confirmed: across any sequence of ticket uploads starting
from an absent table, every row of the stored table has status
"Permanently Closed". -/
theorem claim8_status_invariant (batches : List TicketsUpload) (l : List Ticket)
    (t : Ticket) (hrun : runUploads batches = some l) (hmem : t ∈ l) :
    t.status = "Permanently Closed" :=
  runUploads_status_inv batches none
    (by intro l0 t0 h0 _; exact absurd h0 (by simp)) l t hrun hmem

/-- A well-formed upload of one closed and one open ticket. -/
def c8Closed : RawTicketRow :=
  { issue_key := "C8-1", severity := "Severity 1", status := "Permanently Closed",
    assignee := "alice", environment := "prod", product := "widget", summary := "s",
    crm_company := "Acme", fr_target := none, fr_actual := none, created := some 0,
    updated := none, resolved := some 100, reopen_raw := some 0 }

def c8Open : RawTicketRow :=
  { issue_key := "C8-2", severity := "Severity 1", status := "Open",
    assignee := "bob", environment := "prod", product := "widget", summary := "s",
    crm_company := "Acme", fr_target := none, fr_actual := none, created := some 0,
    updated := none, resolved := none, reopen_raw := some 0 }

def c8Upload : TicketsUpload :=
  { filename := "tickets.csv", headers := REQUIRED_TICKET_COLS,
    rows := [c8Closed, c8Open] }

unseal Rat.sub Rat.mul Rat.inv Rat.add in
/-- Witness for claim C8: after uploading one closed and one open ticket,
the stored table is exactly the closed row, and its status is
"Permanently Closed". -/
theorem claim8_witness :
    runUploads [c8Upload] = some [mkStored c8Closed] ∧
    (mkStored c8Closed).status = "Permanently Closed" :=
  ⟨by decide,
    claim8_status_invariant [c8Upload] [mkStored c8Closed] (mkStored c8Closed)
      (by decide) (by decide)⟩

/-- Stored ticket whose `resolution_minutes` is missing (null `resolved`),
making its assignee group's mean NaN. -/
def c9Ticket : Ticket :=
  { issue_key := "C9-1", severity := "Severity 1", status := "Permanently Closed",
    assignee := "alice", environment := "prod", product := "widget", summary := "s",
    crm_company := "Acme", fr_target := none, fr_actual := none,
    created := none, updated := none, resolved := none, reopen_count := 0,
    resolution_minutes := none }

unseal Rat.sub Rat.mul Rat.inv Rat.add in
/-- Claim C9, counterexample: `assignee_avg` is serialized without
`_json_records`, so a group whose `resolution_minutes` are all missing
emits the float NaN itself (JSON literal `NaN`), not null. -/
theorem claim9_counterexample :
    assignee_avg (some [c9Ticket]) (some []) =
      Except.ok [{ key := "alice", resolution_minutes := JVal.nan }] := rfl

/-- Claim C9, amended: the `violations` and `reopens` responses are
sanitized through `_json_records`, so none of their emitted numeric or
datetime cells is NaN or infinite (non-finite values become null); the
unsanitized `assignee_avg` / `product_avg` responses can emit NaN, as the
counterexample shows. -/
theorem claim9_amended (tickets : Option (List Ticket)) (sla : Option (List SlaRow)) :
    (∀ rs, violations tickets sla = Except.ok rs → ∀ v ∈ rs,
      v.first_response_exceed_pct ≠ JVal.nan ∧ v.resolution_exceed_pct ≠ JVal.nan ∧
      v.created ≠ JVal.nan) ∧
    (∀ rs, reopens tickets sla = Except.ok rs → ∀ v ∈ rs,
      v.first_response_exceed_pct ≠ JVal.nan ∧ v.resolution_exceed_pct ≠ JVal.nan ∧
      v.created ≠ JVal.nan) := by
  constructor
  · intro rs h v hv
    unfold violations at h
    cases hlj : load_joinedOp tickets sla with
    | error e =>
      rw [hlj] at h
      cases h
    | ok d =>
      rw [hlj] at h
      obtain rfl : violations_rows d = rs := by simpa using h
      unfold violations_rows at hv
      obtain ⟨r, _, rfl⟩ := List.mem_map.mp hv
      exact ⟨emitClean_ne_nan _, emitClean_ne_nan _, emitClean_ne_nan _⟩
  · intro rs h v hv
    unfold reopens at h
    cases hlj : load_joinedOp tickets sla with
    | error e =>
      rw [hlj] at h
      cases h
    | ok d =>
      rw [hlj] at h
      obtain rfl : reopens_rows d = rs := by simpa using h
      unfold reopens_rows at hv
      obtain ⟨r, _, rfl⟩ := List.mem_map.mp hv
      exact ⟨emitClean_ne_nan _, emitClean_ne_nan _, emitClean_ne_nan _⟩

/-- The violations record emitted for `c9Ticket`. -/
def c9Rec : VioRec :=
  { issue_key := "C9-1", created := JVal.null, assignee := "alice", product := "widget",
    reopen_count := 0, first_response_within_sla := false,
    first_response_exceed_pct := JVal.num 0, resolution_within_sla := false,
    resolution_exceed_pct := JVal.num 0 }

unseal Rat.sub Rat.mul Rat.inv Rat.add in
/-- Witness for the amended claim C9 at a concrete input: the violations
response for `c9Ticket` emits null (not NaN) for the missing created
timestamp. -/
theorem claim9_amended_witness :
    violations (some [c9Ticket]) (some []) = Except.ok [c9Rec] ∧
    c9Rec.first_response_exceed_pct ≠ JVal.nan ∧
    c9Rec.resolution_exceed_pct ≠ JVal.nan ∧ c9Rec.created ≠ JVal.nan :=
  ⟨by rfl,
    (claim9_amended (some [c9Ticket]) (some [])).1 [c9Rec] (by rfl) c9Rec
      (by decide)⟩

end SlaApp
